import Mathlib

/-!
Verification development for the substance-legacy document core.

The definitions below are shallow embeddings of the JavaScript sources:
 - src/data/graph.js (Graph.update, string diffs)
 - src/document/selection.js (AnnotationIndex.get)
 - src/document/document_change.js (DocumentChange._init / isAffected / invert)
 - src/document/document.js (transaction / startTransaction / _saveTransaction /
   _cancelTransaction / undo / redo / _apply)

Parts of the repository are not present under src/ (the basics package with
PathAdapter, the incremental graph, the operation classes, and
TransactionDocument).  Definitions embedding those parts are modelled from the
specification and say so in their doc comment.
-/

/-- Model of a JavaScript value as far as the document core inspects one:
it only ever asks for truthiness (`if (result[key])`) and for equality. -/
inductive JsValue where
  | undef : JsValue
  | null : JsValue
  | bool (b : Bool) : JsValue
  | num (n : Int) : JsValue
  | str (s : String) : JsValue
  | obj (tag : Nat) : JsValue
deriving DecidableEq, Repr

/-- JavaScript truthiness: undefined, null, false, 0 and "" are falsy,
everything else (including every object and array) is truthy. -/
def JsValue.truthy : JsValue → Bool
  | .undef => false
  | .null => false
  | .bool b => b
  | .num n => n != 0
  | .str s => s != ""
  | .obj _ => true

/-! ## Graph.update, string branch (src/data/graph.js lines 92-140)

The string branch of `Graph.update` computes a new property value from the
old string and a plain diff object and stores it with `this.nodes.set`.
The embedding below reproduces that computation character by character:

 - delete: newValue = oldValue.split / splice(start, end-start) / join,
   (`Array.prototype.splice(start, n)` removes `n` elements starting at
   `start` from the array and returns the removed elements; the joined
   result is therefore the removed slice),
 - insert: newValue = the join of oldValue.substring(0, pos), val and
   oldValue.substring(pos).
-/

/-- Plain string diff objects accepted by Graph.update:
`\x7bdelete: \x7bstart, end\x7d\x7d` and `\x7binsert: \x7boffset, value\x7d\x7d`. -/
inductive StringDiff where
  | del (start stop : Nat) : StringDiff
  | ins (offset : Nat) (value : String) : StringDiff
deriving DecidableEq, Repr

/-- Embedding of the string branch of Graph.update from src/data/graph.js:
the value this function returns is exactly the `newValue` the source stores
via `this.nodes.set(path, newValue)`. -/
def graphUpdateString (oldValue : String) (diff : StringDiff) : String :=
  match diff with
  | .del start stop =>
      String.mk (((oldValue.toList).drop start).take (stop - start))
  | .ins pos val =>
      String.mk ((oldValue.toList).take pos) ++ val ++ String.mk ((oldValue.toList).drop pos)

/-- Removal of the substring [start, stop) as the specification describes it:
the prefix before start concatenated with the suffix from stop. -/
def specDeleteString (s : String) (start stop : Nat) : String :=
  String.mk ((s.toList).take start) ++ String.mk ((s.toList).drop stop)

/-! ## AnnotationIndex.get (src/document/selection.js lines 94-121)

`byPath` maps `anno.path ++ [anno.id]` to the annotation (`this.byPath.set(
anno.path.concat([anno.id]), anno)` in `create`).  `get(path, start, end)`
reads the subtree at `path`, and for each annotation in it pushes
`this.get(a.id)` onto the result - a recursive call whose argument is the
annotation id used as a byPath key.  PathAdapter is not under src/; its
lookup is modelled from the specification (section 4.1: a path is an ordered
sequence of keys, `get` of a partial path returns the nested subtree), so a
bare id resolves to the top-level byPath entry for that id.

The recursion of `get` is modelled with explicit fuel; on every index whose
byPath keys are of the form `anno.path ++ [anno.id]` (the shape `create`
produces) the inner call finds no children and the fuel is never exhausted.
-/

/-- Annotation record as far as the index inspects it: an id and the
character range `a.range[0]`, `a.range[1]`. -/
structure Anno where
  id : String
  range0 : Int
  range1 : Int
deriving DecidableEq, Repr

/-- Modelled from the spec: the byPath PathAdapter of the AnnotationIndex,
as the ordered list of bindings full-path-to-anno created by
`this.byPath.set(anno.path.concat([anno.id]), anno)`. -/
def ByPath : Type := List (List String × Anno)

/-- Modelled from the spec: the direct children of the byPath subtree at
`p`, in insertion order - the annotations stored under `p ++ [key]` for a
single further key.  This is what `Substance.each` iterates over after
`var annotations = this.byPath.get(path) || \x7b\x7d`. -/
def childAnnos (bp : ByPath) (p : List String) : List Anno :=
  bp.filterMap (fun b =>
    if b.1.length == p.length + 1 && b.1.take p.length == p then some b.2 else none)

/-- Truthiness of the `start` / `end` arguments of AnnotationIndex.get:
an omitted argument (undefined) and the number 0 are falsy. -/
def truthyOptInt : Option Int → Bool
  | none => false
  | some v => v != 0

/-- Result values pushed by AnnotationIndex.get.  The source pushes
`this.get(a.id)` (an array) in both branches, so results are nested arrays;
an annotation constructor is included to express what the specification
expects the function to return. -/
inductive GetRes where
  | anno (a : Anno) : GetRes
  | arr (l : List GetRes) : GetRes

/-- Embedding of AnnotationIndex.get (src/document/selection.js) with
explicit fuel for the recursive `this.get(a.id)` calls.  The overlap test is
`aEnd >= sStart` and, when `sEnd` is truthy, additionally `aStart <= sEnd`;
for every annotation that passes, `this.get(a.id)` is pushed. -/
def getFuel : Nat → ByPath → List String → Option Int → Option Int → List GetRes
  | 0, _, _, _, _ => []
  | Nat.succ fuel, bp, path, sStart, sEnd =>
    let annos := childAnnos bp path
    if truthyOptInt sStart then
      annos.filterMap (fun a =>
        let overlap0 := decide (a.range1 ≥ sStart.getD 0)
        let overlap :=
          if truthyOptInt sEnd then overlap0 && decide (a.range0 ≤ sEnd.getD 0)
          else overlap0
        if overlap then some (GetRes.arr (getFuel fuel bp [a.id] none none)) else none)
    else
      annos.map (fun a => GetRes.arr (getFuel fuel bp [a.id] none none))

/-- Embedding of `annotationIndex.get(path, start, end)`; omitted arguments
are `none`. -/
def annoIndexGet (bp : ByPath) (path : List String) (s e : Option Int) : List GetRes :=
  getFuel (bp.length + 1) bp path s e

/-! ## Operations and DocumentChange

The operation classes themselves are not under src/ (only their producers
and consumers are); their data and inverses are modelled from the
specification, section 4.5.  DocumentChange (src/document/document_change.js)
is under src/ and is embedded from the source.
-/

/-- Node data as the document core inspects it: an id, a type, optionally a
`path` property (annotations), and further properties keyed by path tail. -/
structure NodeData where
  id : String
  ntype : String
  path : Option (List String) := none
  props : List (List String × JsValue) := []
deriving DecidableEq, Repr

/-- Modelled from the spec (section 3, Operation): one of create(nodeData),
delete(nodeData), set(path, newValue) capturing the old value, and
update(path, diff) where a string delete diff captures the removed slice at
apply time (required for inversion). -/
inductive Op where
  | create (val : NodeData) : Op
  | del (val : NodeData) : Op
  | set (path : List String) (val original : JsValue) : Op
  | updIns (path : List String) (offset : Nat) (value : String) : Op
  | updDel (path : List String) (start stop : Nat) (removed : String) : Op
deriving DecidableEq, Repr

/-- Modelled from the spec (section 4.5, operation inversion table):
create(data) inverts to delete(data), delete to create, set swaps new and
old value, update-insert inverts to the delete of the spliced range, and
update-delete inverts to the insert of the captured removed slice. -/
def Op.invert : Op → Op
  | .create d => .del d
  | .del d => .create d
  | .set p v o => .set p o v
  | .updIns p off v => .updDel p off (off + v.length) v
  | .updDel p s _ rem => .updIns p s rem

/-- Embedding of DocumentChange (src/document/document_change.js): the
frozen fields ops, before and after.  The derived `updated` index is a
deterministic function of `ops` and is embedded as such below. -/
structure DocumentChange where
  ops : List Op
  before : List (String × JsValue)
  after : List (String × JsValue)
deriving DecidableEq, Repr

/-- Entries one op contributes to the `updated` PathAdapter in
DocumentChange._init: set and update ops register under op.path; otherwise
a create or delete op whose node data has a truthy `path` property registers
under that path (in JavaScript an array - even an empty one - is truthy).
The final branch of the source chain (set ops whose path ends in "path") is
unreachable because the first branch already catches every set op. -/
def opUpdatedEntries : Op → List (List String × Op)
  | o => match o with
    | .set p _ _ => [(p, o)]
    | .updIns p _ _ => [(p, o)]
    | .updDel p _ _ _ => [(p, o)]
    | .create d => match d.path with | some q => [(q, o)] | none => []
    | .del d => match d.path with | some q => [(q, o)] | none => []

/-- Embedding of the `updated` index built by DocumentChange._init: every
op adds its entries in order, then for every delete op the whole subtree of
its node id is removed (`delete updated[del.val.id]`), i.e. every binding
whose first key is the deleted id. -/
def updatedBindings (ops : List Op) : List (List String × Op) :=
  let raw := ops.flatMap opUpdatedEntries
  let deletedIds := ops.filterMap (fun o =>
    match o with | .del d => some d.id | _ => none)
  raw.filter (fun b => !(deletedIds.any (fun i => decide (b.1.head? = some i))))

/-- Embedding of DocumentChange.isAffected: `this.updated.get(path)` is
truthy with a positive length exactly when some op registered under exactly
that path survived the delete pruning. -/
def DocumentChange.isAffected (c : DocumentChange) (path : List String) : Bool :=
  !((updatedBindings c.ops).filter (fun b => decide (b.1 = path))).isEmpty

/-- Embedding of DocumentChange.invert: the ops inverted in reverse order,
with before and after swapped. -/
def DocumentChange.invert (c : DocumentChange) : DocumentChange :=
  { ops := (c.ops.reverse).map Op.invert, before := c.after, after := c.before }

/-! ## The Document (src/document/document.js)

The primary graph `Document.data` is a `Data.Incremental` instance whose
source is not under src/; its `apply` is modelled from the specification
(section 4.2).  The undo and redo stacks, the transaction wrapper,
startTransaction, _saveTransaction, _cancelTransaction and _apply are
embedded from src/document/document.js.  TransactionDocument (the stage) is
not under src/ either; the model keeps exactly what the document core reads
from it: the recorded operation list and the stored before state, with
`save` handing both to `Document._saveTransaction` and `finish` releasing
the transacting state and discarding the staged operations (specification,
sections 4.6 and 5).
-/

/-- Primary graph node set, keyed by node id. -/
def GraphNodes : Type := String → Option NodeData

/-- Modelled from the spec (section 4.2): applying one operation to the
primary graph.  create inserts the node, delete removes it, set replaces a
property value wholesale, update splices or removes a substring of a
string-valued property. -/
def applyOp (g : GraphNodes) : Op → GraphNodes
  | .create d => fun k => if k = d.id then some d else g k
  | .del d => fun k => if k = d.id then none else g k
  | .set p v _ =>
    match p with
    | id :: rest => fun k =>
        if k = id then
          (g id).map (fun n =>
            { n with props := (rest, v) :: n.props.filter (fun kv => kv.1 ≠ rest) })
        else g k
    | [] => g
  | .updIns p off v =>
    match p with
    | id :: rest => fun k =>
        if k = id then
          (g id).map (fun n =>
            { n with props := n.props.map (fun kv =>
                if kv.1 = rest then
                  match kv.2 with
                  | .str s => (kv.1, JsValue.str (String.mk ((s.toList).take off) ++ v
                      ++ String.mk ((s.toList).drop off)))
                  | other => (kv.1, other)
                else kv) })
        else g k
    | [] => g
  | .updDel p start stop _ =>
    match p with
    | id :: rest => fun k =>
        if k = id then
          (g id).map (fun n =>
            { n with props := n.props.map (fun kv =>
                if kv.1 = rest then
                  match kv.2 with
                  | .str s => (kv.1, JsValue.str (String.mk ((s.toList).take start)
                      ++ String.mk ((s.toList).drop stop)))
                  | other => (kv.1, other)
                else kv) })
        else g k
    | [] => g

/-- State of one Document instance: the primary graph, the done and undone
stacks (most recent change last, as in the source arrays), the transacting
flag, the stage's recorded operations and before state, the emitted change
events (change, replay flag), and the console error log. -/
structure DocState where
  graph : GraphNodes
  done : List DocumentChange
  undone : List DocumentChange
  isTransacting : Bool
  stageOps : List Op
  stageBefore : List (String × JsValue)
  notes : List (DocumentChange × Bool)
  errorLog : List String

/-- Outcome of a JavaScript call that can throw: the error message if one
was thrown, and the document state it left behind. -/
structure JsResult where
  err : Option String
  st : DocState

/-- Recording of one change notification (Document._notifyChangeListeners):
the change and whether the info carried the replay flag. -/
def notifyChange (st : DocState) (c : DocumentChange) (replay : Bool) : DocState :=
  { st with notes := st.notes ++ [(c, replay)] }

/-- Embedding of Document._apply: refuses to replay while transacting, else
replays every op of the change onto the primary graph.  The mirroring of
the ops into the stage's shadow graph (mode other than skipStage) does not
touch any state this model tracks. -/
def applyChange (st : DocState) (c : DocumentChange) : Except String DocState :=
  if st.isTransacting then Except.error "Can not replay a document change during transaction."
  else Except.ok { st with graph := c.ops.foldl applyOp st.graph }

/-- Embedding of Document.undo: pops the last change from done; if none,
only logs an error; otherwise inverts it, applies the inverse, pushes the
inverse onto undone and notifies with the replay flag. -/
def Document.undo (st : DocState) : JsResult :=
  match st.done.getLast? with
  | none =>
      { err := none
        st := { st with errorLog := st.errorLog ++ ["No change can be undone."] } }
  | some change =>
      let st1 := { st with done := st.done.dropLast }
      let inverted := change.invert
      match applyChange st1 inverted with
      | Except.error e => { err := some e, st := st1 }
      | Except.ok st2 =>
          { err := none
            st := notifyChange { st2 with undone := st2.undone ++ [inverted] } inverted true }

/-- Embedding of Document.redo: symmetric to undo, popping from undone and
pushing the inverted change back onto done. -/
def Document.redo (st : DocState) : JsResult :=
  match st.undone.getLast? with
  | none =>
      { err := none
        st := { st with errorLog := st.errorLog ++ ["No change can be redone."] } }
  | some change =>
      let st1 := { st with undone := st.undone.dropLast }
      let inverted := change.invert
      match applyChange st1 inverted with
      | Except.error e => { err := some e, st := st1 }
      | Except.ok st2 =>
          { err := none
            st := notifyChange { st2 with done := st2.done ++ [inverted] } inverted true }

/-- State produced by a successful startTransaction: the transacting flag is
raised and the stage stores the before state. -/
def txStartState (st : DocState) (beforeState : List (String × JsValue)) : DocState :=
  { st with isTransacting := true, stageBefore := beforeState }

/-- Embedding of Document.startTransaction: throws on a nested transaction,
else raises the transacting flag and stores the before state on the stage. -/
def Document.startTransaction (st : DocState) (beforeState : List (String × JsValue)) :
    JsResult :=
  if st.isTransacting then
    { err := some "Nested transactions are not supported.", st := st }
  else
    { err := none, st := txStartState st beforeState }

/-- Embedding of Document._saveTransaction: requires an open transaction,
lowers the transacting flag, wraps the stage's recorded operations in a
DocumentChange, applies it (mode skipStage), pushes it onto done, clears
undone and notifies the listeners. -/
def Document.saveTransaction (st : DocState) (afterState : List (String × JsValue)) :
    JsResult :=
  if st.isTransacting then
    let st1 := { st with isTransacting := false }
    let change : DocumentChange :=
      { ops := st1.stageOps, before := st1.stageBefore, after := afterState }
    match applyChange st1 change with
    | Except.error e => { err := some e, st := st1 }
    | Except.ok st2 =>
        { err := none
          st := notifyChange { st2 with done := st2.done ++ [change], undone := [] } change false }
  else
    { err := some "Not in a transaction.", st := st }

/-- Embedding of Document._cancelTransaction: requires an open transaction
and lowers the transacting flag. -/
def Document.cancelTransaction (st : DocState) : JsResult :=
  if st.isTransacting then
    { err := none, st := { st with isTransacting := false } }
  else
    { err := some "Not in a transaction.", st := st }

/-- Modelled from the spec (section 4.6): TransactionDocument.finish runs on
every exit path of the transaction wrapper, releases the transacting state
and discards the staged operations. -/
def txFinish (st : DocState) : DocState :=
  { st with isTransacting := false, stageOps := [] }

/-- Modelled from the spec (section 4.6): a create call on the transaction
document records the create operation on the stage; the primary graph is
untouched while transacting. -/
def txCreate (st : DocState) (d : NodeData) : DocState :=
  { st with stageOps := st.stageOps ++ [Op.create d] }

/-- Embedding of the afterState loop of Document.transaction: for every key
of beforeState, the transformation result's value when that value is truthy
(`if (result[key])`), else the before value.  Keys only in the result are
never visited. -/
def computeAfterState (beforeState : List (String × JsValue))
    (result : String → Option JsValue) : List (String × JsValue) :=
  beforeState.map (fun kv =>
    match result kv.1 with
    | some rv => if rv.truthy then (kv.1, rv) else kv
    | none => kv)

/-- A transformation function as Document.transaction receives one: it runs
on the document (through the stage) and either returns a result object -
modelled as a lookup from key to value - or throws. -/
def Transformation : Type :=
  DocState → DocState × Except String (String → Option JsValue)

/-- Embedding of Document.transaction: start a transaction, run the
transformation, compute the afterState from beforeState and the result,
save through the stage if the transaction is still open, and in all cases
reached by the try block run finish; an exception of startTransaction
happens before the try and propagates without finish. -/
def Document.transaction (st : DocState) (beforeState : List (String × JsValue))
    (f : Transformation) : JsResult :=
  match Document.startTransaction st beforeState with
  | { err := some e, st := st1 } => { err := some e, st := st1 }
  | { err := none, st := st1 } =>
    match f st1 with
    | (st2, Except.error e) => { err := some e, st := txFinish st2 }
    | (st2, Except.ok result) =>
      let afterState := computeAfterState beforeState result
      if st2.isTransacting then
        match Document.saveTransaction st2 afterState with
        | { err := some e, st := st3 } => { err := some e, st := txFinish st3 }
        | { err := none, st := st3 } => { err := none, st := txFinish st3 }
      else
        { err := none, st := txFinish st2 }

/-! ## Theorems -/

/-- C1: the claim states that for a string-valued property with value s and
a diff delete(start, end) with 0 <= start <= end <= length s, Graph.update
stores s with the characters in [start, end) removed, and that applying the
computed inverse of an insert diff restores the original string.  The code
does neither: the value of oldValue.split / splice(start, end-start) / join is the
removed slice itself, because Array.prototype.splice returns the removed
elements.  On "hello" with delete(1, 3) the stored value is "el", not the
claimed "hlo"; and after insert(5, " world") on "hello" the computed inverse
delete(5, 11) yields " world", not "hello". -/
theorem graphUpdateString_delete_stores_removed_slice :
    graphUpdateString "hello" (StringDiff.del 1 3) = "el"
    ∧ specDeleteString "hello" 1 3 = "hlo"
    ∧ graphUpdateString "hello" (StringDiff.del 1 3) ≠ specDeleteString "hello" 1 3
    ∧ graphUpdateString "hello" (StringDiff.ins 5 " world") = "hello world"
    ∧ graphUpdateString "hello world" (StringDiff.del 5 11) = " world"
    ∧ graphUpdateString "hello world" (StringDiff.del 5 11) ≠ "hello" := by
  refine ⟨rfl, rfl, ?_, rfl, rfl, ?_⟩ <;> decide

/-- Annotation index for the overlap-query scenario of the claim: A1 with
range [0, 5] and A2 with range [10, 15], both on path [p1, content]. -/
def c2ExampleIndex : ByPath :=
  [(["p1", "content", "a1"], { id := "a1", range0 := 0, range1 := 5 }),
   (["p1", "content", "a2"], { id := "a2", range0 := 10, range1 := 15 })]

/-- C2: the claim states that get(p, 3, 12) returns exactly the annotations
A1 and A2.  The overlap filter of the source selects exactly A1 and A2, but
for each selected annotation the source pushes `this.get(a.id)` - a byPath
lookup keyed by the bare annotation id, which finds nothing and yields an
empty array - so the call returns two empty arrays instead of the two
annotations; get(p, 6, 9) returns the empty result as claimed. -/
theorem annoIndexGet_returns_empty_arrays :
    annoIndexGet c2ExampleIndex ["p1", "content"] (some 3) (some 12)
      = [GetRes.arr [], GetRes.arr []]
    ∧ annoIndexGet c2ExampleIndex ["p1", "content"] (some 6) (some 9) = []
    ∧ [GetRes.arr [], GetRes.arr []]
      ≠ [GetRes.anno { id := "a1", range0 := 0, range1 := 5 },
         GetRes.anno { id := "a2", range0 := 10, range1 := 15 }] := by
  refine ⟨rfl, rfl, ?_⟩
  intro h
  injection h with h1 h2
  exact GetRes.noConfusion h1

/-- C9: a range query whose start offset is 0 is never filtered by range,
because the source guards the whole filter with the truthiness test
`if (start)` and the number 0 is falsy: get(p, 0, end) runs the same
unfiltered branch as get(p) for every end argument. -/
theorem annoIndexGet_start_zero_unfiltered (bp : ByPath) (p : List String)
    (e : Option Int) :
    annoIndexGet bp p (some 0) e = annoIndexGet bp p none none := rfl

/-- C7: a change whose single op sets [n, title] reports the set path as
affected and a sibling path [n, body] as not affected; and in any change
containing a delete op that removes node n, no path whose first key is n is
reported as affected, including for ops preceding the delete in the batch,
because DocumentChange._init prunes the whole updated subtree of every
deleted node id. -/
theorem documentChange_isAffected_set_and_delete
    (n title body : String) (v o : JsValue) (bef aft : List (String × JsValue))
    (ops : List Op) (d : NodeData) (p : List String)
    (h1 : title ≠ body) (h2 : Op.del d ∈ ops) (h3 : d.id = n)
    (h4 : p.head? = some n) :
    DocumentChange.isAffected { ops := [Op.set [n, title] v o], before := bef, after := aft }
      [n, title] = true
    ∧ DocumentChange.isAffected { ops := [Op.set [n, title] v o], before := bef, after := aft }
      [n, body] = false
    ∧ DocumentChange.isAffected { ops := ops, before := bef, after := aft } p = false := by
  refine ⟨?_, ?_, ?_⟩
  · simp [DocumentChange.isAffected, updatedBindings, opUpdatedEntries]
  · simp [DocumentChange.isAffected, updatedBindings, opUpdatedEntries, h1]
  · have hfe : (updatedBindings ops).filter (fun b => decide (b.1 = p)) = [] := by
      rw [List.filter_eq_nil_iff]
      intro b hb
      simp only [decide_eq_true_eq]
      intro hbp
      have hb2 : b ∈ ops.flatMap opUpdatedEntries ∧
          (!((ops.filterMap (fun o =>
            match o with | .del d => some d.id | _ => none)).any
              (fun i => decide (b.1.head? = some i)))) = true := by
        have := hb
        unfold updatedBindings at this
        exact List.mem_filter.mp this
      have hn : n ∈ ops.filterMap (fun o =>
          match o with | .del d => some d.id | _ => none) :=
        List.mem_filterMap.mpr ⟨Op.del d, h2, by simp [h3]⟩
      have hany := hb2.2
      rw [Bool.not_eq_true'] at hany
      have hall := List.any_eq_false.mp hany n hn
      rw [hbp, h4] at hall
      simp at hall
    simp [DocumentChange.isAffected, hfe]

/-- Helper: a startTransaction on a non-transacting document succeeds. -/
theorem startTransaction_ok (st : DocState) (b : List (String × JsValue))
    (h0 : st.isTransacting = false) :
    Document.startTransaction st b = { err := none, st := txStartState st b } := by
  unfold Document.startTransaction
  rw [h0]
  simp

/-- Helper: the committed change built by a transaction whose transformation
returned result and left state st2. -/
def commitChange (b : List (String × JsValue)) (st2 : DocState)
    (res : String → Option JsValue) : DocumentChange :=
  { ops := st2.stageOps, before := st2.stageBefore, after := computeAfterState b res }

/-- Helper: full reduction of Document.transaction when the transformation
returns normally and the transaction is still open: the stage saves, the
change is applied, pushed to done, undone is cleared, listeners are
notified, and finish runs. -/
theorem transaction_commit_eq (st : DocState) (b : List (String × JsValue))
    (f : Transformation) (st2 : DocState) (res : String → Option JsValue)
    (h0 : st.isTransacting = false)
    (hf : f (txStartState st b) = (st2, Except.ok res))
    (ht : st2.isTransacting = true) :
    Document.transaction st b f =
      { err := none,
        st := txFinish (notifyChange
          { st2 with
              isTransacting := false,
              graph := (commitChange b st2 res).ops.foldl applyOp st2.graph,
              done := st2.done ++ [commitChange b st2 res],
              undone := [] }
          (commitChange b st2 res) false) } := by
  unfold Document.transaction
  rw [startTransaction_ok st b h0]
  dsimp only
  rw [hf]
  dsimp only
  unfold Document.saveTransaction
  unfold applyChange
  simp only [ht, if_true]
  rfl

/-- Helper: full reduction of Document.transaction when the transformation
returns normally but has already ended the transaction: only finish runs. -/
theorem transaction_cancelled_eq (st : DocState) (b : List (String × JsValue))
    (f : Transformation) (st2 : DocState) (res : String → Option JsValue)
    (h0 : st.isTransacting = false)
    (hf : f (txStartState st b) = (st2, Except.ok res))
    (ht : st2.isTransacting = false) :
    Document.transaction st b f = { err := none, st := txFinish st2 } := by
  unfold Document.transaction
  rw [startTransaction_ok st b h0]
  dsimp only
  rw [hf]
  dsimp only
  simp only [ht, Bool.false_eq_true, if_false]

/-- C4: whenever a transaction commits (the transformation returns normally
with the transaction still open, so _saveTransaction runs), the undone
stack of the resulting document is empty regardless of its prior contents,
and the new DocumentChange is the last element of done. -/
theorem transaction_commit_clears_undone (st : DocState) (b : List (String × JsValue))
    (f : Transformation) (st2 : DocState) (res : String → Option JsValue)
    (h0 : st.isTransacting = false)
    (hf : f (txStartState st b) = (st2, Except.ok res))
    (ht : st2.isTransacting = true) :
    (Document.transaction st b f).st.undone = []
    ∧ (Document.transaction st b f).st.done = st2.done ++ [commitChange b st2 res]
    ∧ (Document.transaction st b f).st.done.getLast? = some (commitChange b st2 res) := by
  rw [transaction_commit_eq st b f st2 res h0 hf ht]
  refine ⟨rfl, rfl, ?_⟩
  exact List.getLast?_concat _

/-- C5: nested transactions are rejected - startTransaction on a document
whose transacting flag is raised always throws - and after the transaction
wrapper finishes, whether the transformation returned or threw, the
transacting flag is lowered again because finish runs on every exit path of
the try block. -/
theorem startTransaction_nested_rejected_and_finish_resets (st : DocState)
    (b : List (String × JsValue)) (f : Transformation) :
    Document.startTransaction { st with isTransacting := true } b
      = { err := some "Nested transactions are not supported.",
          st := { st with isTransacting := true } }
    ∧ (Document.transaction { st with isTransacting := false } b f).st.isTransacting
      = false := by
  constructor
  · unfold Document.startTransaction
    simp
  · unfold Document.transaction
    rw [startTransaction_ok { st with isTransacting := false } b rfl]
    dsimp only
    rcases hf : f (txStartState { st with isTransacting := false } b) with ⟨st2, r⟩
    cases r with
    | error e => rfl
    | ok result =>
      dsimp only
      by_cases hts : st2.isTransacting
      · unfold Document.saveTransaction
        unfold applyChange
        simp only [hts, if_true]
        rfl
      · rw [Bool.not_eq_true] at hts
        simp only [hts, Bool.false_eq_true, if_false]
        rfl

/-- C10: when the transformation has already ended the transaction before
returning, the wrapper does not save: no DocumentChange is constructed, the
done and undone stacks and the emitted notifications are exactly those the
transformation left behind, and the stage's finish still runs. -/
theorem transaction_cancelled_skips_save (st : DocState) (b : List (String × JsValue))
    (f : Transformation) (st2 : DocState) (res : String → Option JsValue)
    (h0 : st.isTransacting = false)
    (hf : f (txStartState st b) = (st2, Except.ok res))
    (ht : st2.isTransacting = false) :
    Document.transaction st b f = { err := none, st := txFinish st2 }
    ∧ (Document.transaction st b f).st.done = st2.done
    ∧ (Document.transaction st b f).st.undone = st2.undone
    ∧ (Document.transaction st b f).st.notes = st2.notes := by
  have h := transaction_cancelled_eq st b f st2 res h0 hf ht
  rw [h]
  exact ⟨rfl, rfl, rfl, rfl⟩

/-- C6: undo on an empty done stack (and redo on an empty undone stack) does
not throw and changes nothing but the console error log. -/
theorem undo_redo_empty_history_noop (st : DocState) :
    (st.done = [] →
      Document.undo st =
        { err := none,
          st := { st with errorLog := st.errorLog ++ ["No change can be undone."] } })
    ∧ (st.undone = [] →
      Document.redo st =
        { err := none,
          st := { st with errorLog := st.errorLog ++ ["No change can be redone."] } }) := by
  constructor
  · intro h
    unfold Document.undo
    rw [h]
    rfl
  · intro h
    unfold Document.redo
    rw [h]
    rfl

/-- Helper: a fully explicit concrete document state used by the witnesses:
empty graph, empty history, no open transaction. -/
def emptyDocState : DocState :=
  { graph := fun _ => none, done := [], undone := [], isTransacting := false,
    stageOps := [], stageBefore := [], notes := [], errorLog := [] }

/-- Helper: reduction of Document.undo on a non-transacting state whose done
stack ends in change c. -/
theorem undo_concat (st : DocState) (c : DocumentChange) (rest : List DocumentChange)
    (hdone : st.done = rest ++ [c]) (hflag : st.isTransacting = false) :
    Document.undo st =
      { err := none,
        st := notifyChange
          { st with
              done := rest,
              graph := c.invert.ops.foldl applyOp st.graph,
              undone := st.undone ++ [c.invert] } c.invert true } := by
  unfold Document.undo
  rw [hdone, List.getLast?_concat]
  dsimp only
  rw [List.dropLast_concat]
  unfold applyChange
  dsimp only
  simp only [hflag, Bool.false_eq_true, if_false]

/-- Helper: reduction of Document.redo on a non-transacting state whose
undone stack ends in change c. -/
theorem redo_concat (st : DocState) (c : DocumentChange) (rest : List DocumentChange)
    (hundone : st.undone = rest ++ [c]) (hflag : st.isTransacting = false) :
    Document.redo st =
      { err := none,
        st := notifyChange
          { st with
              undone := rest,
              graph := c.invert.ops.foldl applyOp st.graph,
              done := st.done ++ [c.invert] } c.invert true } := by
  unfold Document.redo
  rw [hundone, List.getLast?_concat]
  dsimp only
  rw [List.dropLast_concat]
  unfold applyChange
  dsimp only
  simp only [hflag, Bool.false_eq_true, if_false]

/-- C3: from a committed document state (no open transaction, stage flushed),
a transaction that creates a node and saves, followed by undo() and redo(),
yields a graph state deep-equal to the state right after the create was
committed, with the done stack containing the committed change on top of the
prior history and the undone stack empty. -/
theorem transaction_create_undo_redo_roundtrip (st : DocState) (d : NodeData)
    (b : List (String × JsValue)) (res : String → Option JsValue)
    (h0 : st.isTransacting = false) (h1 : st.stageOps = []) :
    (Document.redo (Document.undo (Document.transaction st b
        (fun s => (txCreate s d, Except.ok res))).st).st).st.graph
      = (Document.transaction st b (fun s => (txCreate s d, Except.ok res))).st.graph
    ∧ (Document.redo (Document.undo (Document.transaction st b
        (fun s => (txCreate s d, Except.ok res))).st).st).st.done
      = st.done ++ [{ ops := [Op.create d], before := b,
                      after := computeAfterState b res }]
    ∧ (Document.redo (Document.undo (Document.transaction st b
        (fun s => (txCreate s d, Except.ok res))).st).st).st.undone = [] := by
  have htx := transaction_commit_eq st b (fun s => (txCreate s d, Except.ok res))
      (txCreate (txStartState st b) d) res h0 rfl rfl
  have hXdone : (Document.transaction st b (fun s => (txCreate s d, Except.ok res))).st.done
      = st.done ++ [commitChange b (txCreate (txStartState st b) d) res] := by
    rw [htx]
    rfl
  have hXflag : (Document.transaction st b
      (fun s => (txCreate s d, Except.ok res))).st.isTransacting = false := by
    rw [htx]
    rfl
  have hXundone : (Document.transaction st b
      (fun s => (txCreate s d, Except.ok res))).st.undone = [] := by
    rw [htx]
    rfl
  have hXgraph : (Document.transaction st b (fun s => (txCreate s d, Except.ok res))).st.graph
      = (commitChange b (txCreate (txStartState st b) d) res).ops.foldl applyOp st.graph := by
    rw [htx]
    rfl
  have hu := undo_concat _ _ _ hXdone hXflag
  have hUundone : (Document.undo (Document.transaction st b
      (fun s => (txCreate s d, Except.ok res))).st).st.undone
      = [] ++ [(commitChange b (txCreate (txStartState st b) d) res).invert] := by
    rw [hu]
    dsimp only [notifyChange]
    rw [hXundone]
  have hUflag : (Document.undo (Document.transaction st b
      (fun s => (txCreate s d, Except.ok res))).st).st.isTransacting = false := by
    rw [hu]
    dsimp only [notifyChange]
    exact hXflag
  have hUdone : (Document.undo (Document.transaction st b
      (fun s => (txCreate s d, Except.ok res))).st).st.done = st.done := by
    rw [hu]
    rfl
  have hUgraph : (Document.undo (Document.transaction st b
      (fun s => (txCreate s d, Except.ok res))).st).st.graph
      = (commitChange b (txCreate (txStartState st b) d) res).invert.ops.foldl applyOp
          ((commitChange b (txCreate (txStartState st b) d) res).ops.foldl applyOp st.graph) := by
    rw [hu]
    dsimp only [notifyChange]
    rw [hXgraph]
  have hr := redo_concat _ _ _ hUundone hUflag
  have hcc : (commitChange b (txCreate (txStartState st b) d) res).invert.invert
      = { ops := [Op.create d], before := b, after := computeAfterState b res } := by
    simp [commitChange, DocumentChange.invert, txCreate, txStartState, h1, Op.invert]
  have hops1 : (commitChange b (txCreate (txStartState st b) d) res).ops = [Op.create d] := by
    simp [commitChange, txCreate, txStartState, h1]
  have hops2 : (commitChange b (txCreate (txStartState st b) d) res).invert.ops
      = [Op.del d] := by
    simp [commitChange, DocumentChange.invert, txCreate, txStartState, h1, Op.invert]
  refine ⟨?_, ?_, ?_⟩
  · rw [hr]
    dsimp only [notifyChange]
    rw [hcc, hUgraph, hXgraph, hops1, hops2]
    dsimp only [List.foldl]
    funext k
    by_cases hk : k = d.id <;> simp [applyOp, hk]
  · rw [hr]
    dsimp only [notifyChange]
    rw [hUdone, hcc]
  · rw [hr]
    dsimp only [notifyChange]

/-- Helper: the afterState loop preserves the key list of beforeState. -/
theorem computeAfterState_keys (b : List (String × JsValue))
    (res : String → Option JsValue) :
    (computeAfterState b res).map Prod.fst = b.map Prod.fst := by
  unfold computeAfterState
  rw [List.map_map]
  apply List.map_congr_left
  intro kv _
  simp only [Function.comp]
  cases hres : res kv.1 with
  | none => rfl
  | some rv => by_cases hrv : rv.truthy <;> simp [hrv]

/-- Helper: every beforeState entry contributes its key to the afterState,
mapped to the result value when that value is truthy and to the before
value otherwise. -/
theorem computeAfterState_mem (b : List (String × JsValue))
    (res : String → Option JsValue) (k : String) (bv : JsValue)
    (h : (k, bv) ∈ b) :
    (k, match res k with
        | some rv => if rv.truthy then rv else bv
        | none => bv) ∈ computeAfterState b res := by
  unfold computeAfterState
  refine List.mem_map.mpr ⟨(k, bv), h, ?_⟩
  cases hres : res k with
  | none => simp [hres]
  | some rv => by_cases hrv : rv.truthy <;> simp [hres, hrv]

/-- C8 counterexample ingredients: a beforeState with one truthy value and a
transformation whose result holds the same key with a falsy value. -/
def c8Doc : DocState := emptyDocState

/-- Before state used by the C8 counterexample. -/
def c8Before : List (String × JsValue) := [("selection", JsValue.str "s")]

/-- Transformation result used by the C8 counterexample: the key is present
but its value (false) is falsy. -/
def c8Result : String → Option JsValue :=
  fun k => if k = "selection" then some (JsValue.bool false) else none

/-- Transformation used by the C8 counterexample. -/
def c8Fn : Transformation := fun s => (s, Except.ok c8Result)

/-- C8, counterexample: the claim says afterState takes the transformation
result's value for every key present in the result, but the source tests
truthiness (`if (result[key])`), not presence.  With before value "s" and a
present-but-falsy result value false, the committed change records the
before value "s", not the result's false. -/
theorem transaction_afterState_truthiness_counterexample :
    ((Document.transaction c8Doc c8Before c8Fn).st.done.map DocumentChange.after)
      = [[("selection", JsValue.str "s")]]
    ∧ c8Result "selection" = some (JsValue.bool false)
    ∧ ([[("selection", JsValue.str "s")]] : List (List (String × JsValue)))
      ≠ [[("selection", JsValue.bool false)]] := by
  refine ⟨rfl, rfl, by decide⟩

/-- C8, amended: the afterState recorded at commit has exactly the key set
of beforeState, each key mapping to the transformation result's value when
that value is present and truthy and to beforeState's value otherwise, and
keys of the result that are not in beforeState never appear. -/
theorem transaction_afterState_truthy_amended (st : DocState)
    (b : List (String × JsValue)) (f : Transformation) (st2 : DocState)
    (res : String → Option JsValue)
    (h0 : st.isTransacting = false)
    (hf : f (txStartState st b) = (st2, Except.ok res))
    (ht : st2.isTransacting = true) :
    ∃ change, (Document.transaction st b f).st.done.getLast? = some change
    ∧ change.after.map Prod.fst = b.map Prod.fst
    ∧ (∀ k bv, (k, bv) ∈ b →
        (k, match res k with
            | some rv => if rv.truthy then rv else bv
            | none => bv) ∈ change.after)
    ∧ (∀ k, k ∉ b.map Prod.fst → k ∉ change.after.map Prod.fst) := by
  refine ⟨commitChange b st2 res, ?_, ?_, ?_, ?_⟩
  · rw [transaction_commit_eq st b f st2 res h0 hf ht]
    exact List.getLast?_concat _
  · exact computeAfterState_keys b res
  · intro k bv h
    exact computeAfterState_mem b res k bv h
  · intro k hk
    rw [commitChange]
    dsimp only
    rw [computeAfterState_keys b res]
    exact hk

/-- Concrete node used by the round-trip witness. -/
def w3Node : NodeData := { id := "n1", ntype := "paragraph" }

/-- Concrete transformation result used by the round-trip witness. -/
def w3Res : String → Option JsValue := fun _ => none

/-- Witness for the round-trip theorem on the empty document. -/
theorem transaction_create_undo_redo_roundtrip_witness :
    emptyDocState.isTransacting = false
    ∧ emptyDocState.stageOps = []
    ∧ ((Document.redo (Document.undo (Document.transaction emptyDocState []
          (fun s => (txCreate s w3Node, Except.ok w3Res))).st).st).st.graph
        = (Document.transaction emptyDocState []
            (fun s => (txCreate s w3Node, Except.ok w3Res))).st.graph
      ∧ (Document.redo (Document.undo (Document.transaction emptyDocState []
          (fun s => (txCreate s w3Node, Except.ok w3Res))).st).st).st.done
        = emptyDocState.done ++ [{ ops := [Op.create w3Node], before := [],
                                   after := computeAfterState [] w3Res }]
      ∧ (Document.redo (Document.undo (Document.transaction emptyDocState []
          (fun s => (txCreate s w3Node, Except.ok w3Res))).st).st).st.undone = []) :=
  ⟨rfl, rfl, transaction_create_undo_redo_roundtrip emptyDocState w3Node [] w3Res rfl rfl⟩

/-- Concrete transformation result used by the commit witness. -/
def w4Res : String → Option JsValue := fun _ => none

/-- Concrete transformation used by the commit witness: it stages nothing
and leaves the transaction open. -/
def w4Fn : Transformation := fun s => (s, Except.ok w4Res)

/-- State the commit witness transformation returns. -/
def w4St2 : DocState := txStartState emptyDocState []

/-- Witness for the commit-clears-undone theorem on the empty document. -/
theorem transaction_commit_clears_undone_witness :
    emptyDocState.isTransacting = false
    ∧ w4Fn (txStartState emptyDocState []) = (w4St2, Except.ok w4Res)
    ∧ w4St2.isTransacting = true
    ∧ ((Document.transaction emptyDocState [] w4Fn).st.undone = []
      ∧ (Document.transaction emptyDocState [] w4Fn).st.done
        = w4St2.done ++ [commitChange [] w4St2 w4Res]
      ∧ (Document.transaction emptyDocState [] w4Fn).st.done.getLast?
        = some (commitChange [] w4St2 w4Res)) :=
  ⟨rfl, rfl, rfl,
   transaction_commit_clears_undone emptyDocState [] w4Fn w4St2 w4Res rfl rfl rfl⟩

/-- Witness for the empty-history no-op theorem on the empty document. -/
theorem undo_redo_empty_history_noop_witness :
    emptyDocState.done = []
    ∧ emptyDocState.undone = []
    ∧ Document.undo emptyDocState =
        { err := none,
          st := { emptyDocState with
                    errorLog := emptyDocState.errorLog ++ ["No change can be undone."] } }
    ∧ Document.redo emptyDocState =
        { err := none,
          st := { emptyDocState with
                    errorLog := emptyDocState.errorLog ++ ["No change can be redone."] } } :=
  ⟨rfl, rfl, (undo_redo_empty_history_noop emptyDocState).1 rfl,
   (undo_redo_empty_history_noop emptyDocState).2 rfl⟩

/-- Concrete node deleted by the isAffected witness. -/
def w7Node : NodeData := { id := "n1", ntype := "text" }

/-- Witness for the isAffected theorem at a concrete set op and a concrete
deleting change. -/
theorem documentChange_isAffected_set_and_delete_witness :
    ("title" : String) ≠ "body"
    ∧ Op.del w7Node ∈ [Op.del w7Node]
    ∧ w7Node.id = "n1"
    ∧ (["n1", "title"] : List String).head? = some "n1"
    ∧ (DocumentChange.isAffected
        { ops := [Op.set ["n1", "title"] JsValue.null JsValue.null],
          before := [], after := [] } ["n1", "title"] = true
      ∧ DocumentChange.isAffected
        { ops := [Op.set ["n1", "title"] JsValue.null JsValue.null],
          before := [], after := [] } ["n1", "body"] = false
      ∧ DocumentChange.isAffected
        { ops := [Op.del w7Node], before := [], after := [] } ["n1", "title"] = false) :=
  ⟨by decide, List.mem_singleton.mpr rfl, rfl, rfl,
   documentChange_isAffected_set_and_delete "n1" "title" "body" JsValue.null JsValue.null
     [] [] [Op.del w7Node] w7Node ["n1", "title"]
     (by decide) (List.mem_singleton.mpr rfl) rfl rfl⟩

/-- Witness for the amended afterState theorem at the counterexample
transformation. -/
theorem transaction_afterState_truthy_amended_witness :
    c8Doc.isTransacting = false
    ∧ c8Fn (txStartState c8Doc c8Before) = (txStartState c8Doc c8Before, Except.ok c8Result)
    ∧ (txStartState c8Doc c8Before).isTransacting = true
    ∧ (∃ change, (Document.transaction c8Doc c8Before c8Fn).st.done.getLast? = some change
      ∧ change.after.map Prod.fst = c8Before.map Prod.fst
      ∧ (∀ k bv, (k, bv) ∈ c8Before →
          (k, match c8Result k with
              | some rv => if rv.truthy then rv else bv
              | none => bv) ∈ change.after)
      ∧ (∀ k, k ∉ c8Before.map Prod.fst → k ∉ change.after.map Prod.fst)) :=
  ⟨rfl, rfl, rfl,
   transaction_afterState_truthy_amended c8Doc c8Before c8Fn
     (txStartState c8Doc c8Before) c8Result rfl rfl rfl⟩

/-- Concrete transformation result used by the cancelled-transaction witness. -/
def w10Res : String → Option JsValue := fun _ => none

/-- Concrete transformation used by the cancelled-transaction witness: it
ends the transaction and returns normally. -/
def w10Fn : Transformation :=
  fun s => ({ s with isTransacting := false }, Except.ok w10Res)

/-- State the cancelled-transaction witness transformation returns. -/
def w10St2 : DocState := { txStartState emptyDocState [] with isTransacting := false }

/-- Witness for the cancelled-transaction theorem on the empty document. -/
theorem transaction_cancelled_skips_save_witness :
    emptyDocState.isTransacting = false
    ∧ w10Fn (txStartState emptyDocState []) = (w10St2, Except.ok w10Res)
    ∧ w10St2.isTransacting = false
    ∧ (Document.transaction emptyDocState [] w10Fn = { err := none, st := txFinish w10St2 }
      ∧ (Document.transaction emptyDocState [] w10Fn).st.done = w10St2.done
      ∧ (Document.transaction emptyDocState [] w10Fn).st.undone = w10St2.undone
      ∧ (Document.transaction emptyDocState [] w10Fn).st.notes = w10St2.notes) :=
  ⟨rfl, rfl, rfl,
   transaction_cancelled_skips_save emptyDocState [] w10Fn w10St2 w10Res rfl rfl rfl⟩
